import Mathlib

/-!
Verification of the snforge-scarb-plugin core (starknet-foundry):
a shallow embedding of `config_statement.rs`, `cairo_expression.rs` and
`parse.rs`, together with theorems settling the specification claims.

Modelling conventions:

* A token stream is a `List String` (one entry per token; spans are ignored,
  they carry no behavioural content here).
* The Cairo AST is embedded only as deeply as `append_config_statements`
  inspects it.  The splicer (config_statement.rs lines 61-183) looks at
  syntax structure only through the chain
  `Statement::Expr` / `Expr::If` / `Condition::Expr` / `Expr::FunctionCall`
  / three path-segment identifiers, and re-emits every other node verbatim
  via `as_syntax_node`.  Accordingly, statement and expression forms that
  are never inspected are carried as opaque token sequences, and the
  statements inside a guard's block (only ever re-emitted or extended,
  never structurally inspected) are carried as `SimpleStmt`.
* Rust panics (the `statements[..statements.len() - 1]` slice on an empty
  interior, `expect`, `unwrap`) are modelled by `Option`/`none`.
* `quote!` output is modelled at the reparse level: the token stream the
  splicer emits parses back into the `FunctionWithBody` the model returns,
  and `renderFunction` reproduces the emission order of the final `quote!`
  (attributes, visibility, declaration, body) for claims about token order.
-/

namespace Snforge

/-- The expression inside a `Condition::Expr` clause, kept only as deeply as
the splicer inspects it: a function call carries its path-segment
identifiers and (opaque) argument tokens; anything else is opaque tokens. -/
inductive CondExpr : Type where
  | functionCall : List String → List String → CondExpr
  | otherCondExpr : List String → CondExpr
deriving DecidableEq, Repr

/-- `ast::Condition`: either an expression condition (`Condition::Expr`) or a
`let` condition (`Condition::Let`, opaque). -/
inductive Condition : Type where
  | condExpr : CondExpr → Condition
  | letCondition : List String → Condition
deriving DecidableEq, Repr

/-- A statement inside an `if` block.  The splicer never inspects these: it
either re-emits them verbatim or appends generated ones, so they are opaque
token sequences — except the trailing `return;` statement, which the splicer
itself inserts and strips, and which we keep distinguishable. -/
inductive SimpleStmt : Type where
  | simpleOther : List String → SimpleStmt
  | simpleRet : SimpleStmt
deriving DecidableEq, Repr

/-- `ast::Expr`, kept only as deeply as the splicer inspects it: an `if`
expression carries its condition, its block's statements and opaque
else-clause tokens; every other expression form is opaque tokens. -/
inductive Expr : Type where
  | ifExpr : Condition → List SimpleStmt → List String → Expr
  | otherExpr : List String → Expr
deriving DecidableEq, Repr

/-- `ast::Statement` at the function-body level: an expression statement
(`Statement::Expr`) or any other statement form (opaque tokens). -/
inductive Statement : Type where
  | exprStmt : Expr → Statement
  | otherStmt : List String → Statement
deriving DecidableEq, Repr

/-- The syntax snapshot of the annotated function that
`append_config_statements` reads: visibility tokens, attribute-list tokens,
declaration tokens, and the body's statement sequence
(config_statement.rs lines 66-69). -/
structure FunctionWithBody : Type where
  visibility : List String
  attributes : List String
  declaration : List String
  statements : List Statement
deriving DecidableEq, Repr

/-- The three path-segment identifiers of the sentinel call
`snforge_std::_internals::_is_config_run` (config_statement.rs lines 87-99). -/
def sentinelPath : List String := ["snforge_std", "_internals", "_is_config_run"]

/-- The sentinel condition call, as it reparses from the emitted
`if snforge_std::_internals::_is_config_run() {` (zero arguments). -/
def sentinelCall : CondExpr := CondExpr.functionCall sentinelPath []

/-- The guarded block statement with the given interior, as it reparses from
the splicer's emitted `if` statement (no else clause). -/
def guardStatement (interior : List SimpleStmt) : Statement :=
  Statement.exprStmt (Expr.ifExpr (Condition.condExpr sentinelCall) interior [])

/-- Mirrors config_statement.rs lines 71-101: the let-else chain that decides
whether a statement is a recognized guarded block, returning the guard's full
interior statement list (the `if_expr.if_block(db).statements(db).elements(db)`
of line 101) when it is. -/
def recognizeGuard : Statement → Option (List SimpleStmt)
  | Statement.exprStmt e =>
    match e with
    | Expr.ifExpr cond blk _els =>
      match cond with
      | Condition.condExpr ce =>
        match ce with
        | CondExpr.functionCall segs _args =>
          match segs with
          | [s1, s2, s3] =>
            if s1 ≠ "snforge_std" ∨ s2 ≠ "_internals" ∨ s3 ≠ "_is_config_run" then
              none
            else
              some blk
          | _ => none
        | _ => none
      | _ => none
    | _ => none
  | _ => none

/-- Mirrors config_statement.rs line 105, `statements[..statements.len() - 1]`:
drop the assumed-final `return;`.  On an empty interior the Rust expression
underflows (`0usize - 1`) and the slice indexing panics, modelled as `none`. -/
def previousContent : List SimpleStmt → Option (List SimpleStmt)
  | [] => none
  | s :: rest => some ((s :: rest).dropLast)

/-- Mirrors the `if_content` computation, config_statement.rs lines 71-120:
`statements.first().and_then(...)`.  Outer `none` models the panic inside the
closure; `some none` means no guarded block was recognized; `some (some prev)`
is the recognized guard's interior minus the assumed-final return. -/
def ifContent : List Statement → Option (Option (List SimpleStmt))
  | [] => some none
  | s :: _ =>
    match recognizeGuard s with
    | none => some none
    | some blk => (previousContent blk).map some

/-- Mirrors `append_config_statements` (config_statement.rs lines 61-183) at
the reparse level: the emitted token stream parses back into this function.
The output keeps visibility, attributes and declaration; its body is the
guarded block — previous content, then the generated statements, then
`return;` — followed by the remainder (`&statements[1..]` when a guard was
recognized, all statements otherwise, lines 122-137).  `none` models the
panic on a recognized guard with an empty interior. -/
def append_config_statements (func : FunctionWithBody)
    (config_statements : List SimpleStmt) : Option FunctionWithBody :=
  match ifContent func.statements with
  | none => none
  | some prevOpt =>
    some (FunctionWithBody.mk func.visibility func.attributes func.declaration
      (guardStatement (prevOpt.getD [] ++ config_statements ++ [SimpleStmt.simpleRet]) ::
        (match prevOpt with
         | some _ => func.statements.tail
         | none => func.statements)))

/-- Applying the splicing transformation once per block, in sequence, each
application consuming the previous application's output. -/
def applyBlocks (func : FunctionWithBody) :
    List (List SimpleStmt) → Option FunctionWithBody
  | [] => some func
  | g :: gs =>
    match append_config_statements func g with
    | none => none
    | some func1 => applyBlocks func1 gs

/-- The interiors of all guard-shaped statements of a body, used to count
guarded blocks. -/
def guardShapedInteriors : List Statement → List (List SimpleStmt)
  | [] => []
  | s :: rest =>
    match recognizeGuard s with
    | some blk => blk :: guardShapedInteriors rest
    | none => guardShapedInteriors rest

/-- Whether the first statement of a body is a recognized guarded block. -/
def hasRecognizedGuard : List Statement → Bool
  | [] => false
  | s :: _ => (recognizeGuard s).isSome

/-- Whether extracting previous content from this body hits the
`statements.len() - 1` underflow: a recognized guard with empty interior. -/
def underflowsOnExtraction : List Statement → Bool
  | [] => false
  | s :: _ =>
    match recognizeGuard s with
    | some [] => true
    | _ => false

/-- Path segments joined by `::`, as a path prints. -/
def renderPath : List String → List String
  | [] => []
  | [s] => [s]
  | s :: rest => s :: "::" :: renderPath rest

/-- Token rendering of a condition expression. -/
def CondExpr.render : CondExpr → List String
  | CondExpr.functionCall p argT => renderPath p ++ ["("] ++ argT ++ [")"]
  | CondExpr.otherCondExpr ts => ts

/-- Token rendering of a condition. -/
def Condition.render : Condition → List String
  | Condition.condExpr ce => ce.render
  | Condition.letCondition ts => ts

/-- Token rendering of an if-block statement. -/
def SimpleStmt.render : SimpleStmt → List String
  | SimpleStmt.simpleOther ts => ts
  | SimpleStmt.simpleRet => ["return", ";"]

/-- Token rendering of an expression. -/
def Expr.render : Expr → List String
  | Expr.ifExpr cond blk els =>
      ["if"] ++ cond.render ++ ["\x7b"] ++ (blk.map SimpleStmt.render).flatten ++ ["\x7d"] ++ els
  | Expr.otherExpr ts => ts

/-- Token rendering of a statement. -/
def Statement.render : Statement → List String
  | Statement.exprStmt e => e.render
  | Statement.otherStmt ts => ts

/-- The emission order of the splicer's final `quote!`
(config_statement.rs lines 169-182): the attribute list comes first, then the
visibility, then the declaration, then the braced body. -/
def renderFunction (func : FunctionWithBody) : List String :=
  func.attributes ++ func.visibility ++ func.declaration ++
    ["\x7b"] ++ (func.statements.map Statement.render).flatten ++ ["\x7d"]

/-- Modelled from the spec's words for comparison ("the output function =
original visibility + original attribute list + original declaration + a
body ..."): the same components emitted with the visibility first. -/
def renderFunctionSpecOrder (func : FunctionWithBody) : List String :=
  func.visibility ++ func.attributes ++ func.declaration ++
    ["\x7b"] ++ (func.statements.map Statement.render).flatten ++ ["\x7d"]

/-- Modelled from the spec's words (Detection, section 4.4): a statement is a
recognized guarded block iff it is an expression-statement whose expression is
a conditional whose test is a function call, and the called function's path
has exactly three segments equal to the sentinel triple. -/
def specDetectionShape : Statement → Bool
  | Statement.exprStmt (Expr.ifExpr (Condition.condExpr (CondExpr.functionCall p _)) _ _) =>
      decide (p = sentinelPath)
  | _ => false

/-- Mirrors `impl CairoExpression for Option<T>` (cairo_expression.rs lines
7-19), abstracting the element serializer `T::as_cairo_expression` as `ser`:
`Some(v)` becomes `quote!(Option::Some( #v ))`, `None` becomes
`quote!(Option::None)`. -/
def optionAsCairoExpression {α : Type} (ser : α → List String) :
    Option α → List String
  | some v => ["Option", "::", "Some", "("] ++ ser v ++ [")"]
  | none => ["Option", "::", "None"]

/-- Mirrors `impl CairoExpression for Vec<T>` (cairo_expression.rs lines
21-40): start from the single token `array![`, then for each element extend
with its serialization and push a `,` token, finally push `]`. -/
def vecAsCairoExpression {α : Type} (ser : α → List String)
    (l : List α) : List String :=
  (l.foldl (fun acc e => acc ++ ser e ++ [","]) ["array!["]) ++ ["]"]

/-- An attribute in the reparsed synthetic module: its identifier and its
(opaque) argument-list node, modelling `ast::Attribute` as far as
`find_attr` / `arguments` read it. -/
structure PAttr : Type where
  name : String
  args : List String
deriving DecidableEq, Repr

/-- A reparsed free function, kept only as deeply as `parse_args` reads it:
its attribute list. -/
structure ParsedFunction : Type where
  attrList : List PAttr
deriving DecidableEq, Repr

/-- An `ast::ModuleItem` of the reparsed synthetic file: a free function or
any other item kind. -/
inductive ModuleItem : Type where
  | freeFunction : ParsedFunction → ModuleItem
  | otherItem : ModuleItem
deriving DecidableEq, Repr

/-- Mirrors `parse` (parse.rs lines 12-34), abstracting the external
`SimpleParserDatabase::parse_token_stream` as the `parser` argument: take the
parsed file's items, keep the first free function, otherwise report the
`can be used only on a function` diagnostic. -/
def parse (parser : List String → List ModuleItem) (code : List String) :
    Except String ParsedFunction :=
  match (parser code).findSome? (fun element =>
      match element with
      | ModuleItem.freeFunction func => some func
      | _ => none) with
  | some func => Except.ok func
  | none => Except.error "can be used only on a function"

/-- `InternalCollector::ATTR_NAME` (parse.rs line 39). -/
def syntheticAttrName : String := "__SNFORGE_INTERNAL_ATTR__"

/-- The synthetic unit built by `parse_args` (parse.rs lines 48-51): the raw
argument tokens embedded as an attribute on a sentinel empty function. -/
def syntheticCode (args : List String) : List String :=
  ["#[", syntheticAttrName] ++ args ++
    ["]", "fn", "__SNFORGE_INTERNAL_FN__", "(", ")", "\x7b", "\x7d"]

/-- Mirrors `QueryAttrs::find_attr` as `parse_args` uses it: the first
attribute with the given identifier. -/
def find_attr (func : ParsedFunction) (name : String) : Option PAttr :=
  func.attrList.find? (fun a => a.name == name)

/-- Mirrors `parse_args` (parse.rs lines 42-64): embed the argument tokens in
a synthetic attribute on a sentinel empty function, reparse the unit, and
extract that attribute's argument-list node.  The `expect` on a failed parse
and the `unwrap` on a missing attribute are panics, modelled as `none`; there
is no user-facing diagnostic channel in the return type. -/
def parse_args (parser : List String → List ModuleItem) (args : List String) :
    Option (List String) :=
  match parse parser (syntheticCode args) with
  | Except.error _ => none
  | Except.ok func =>
    match find_attr func syntheticAttrName with
    | none => none
    | some attr => some attr.args

/-- The single `Ident` token holding the cheatcode call
(config_statement.rs lines 44-47), parameterized by the collector's
`CHEATCODE_NAME`. -/
def cheatcodeCallToken (cheatcodeName : String) : String :=
  "starknet::testing::cheatcode::<\x27" ++ cheatcodeName ++ "\x27>(data.span())"

/-- The generated statements of `config_cheatcode`
(config_statement.rs lines 49-56), as they reparse inside the guard: build a
fresh array, serialize the configuration value into it via the value's own
`serialize`, and pass the buffer's span to the cheatcode intrinsic. -/
def configCheatcodeStatements (value : List String) (cheatcodeName : String) :
    List SimpleStmt :=
  [SimpleStmt.simpleOther ["let", "mut", "data", "=", "array", "!", "[", "]", ";"],
   SimpleStmt.simpleOther (value ++ [".", "serialize", "(", "ref", "data", ")", ";"]),
   SimpleStmt.simpleOther [cheatcodeCallToken cheatcodeName, ";"]]

/-- Mirrors `with_config_cheatcodes` (config_statement.rs lines 30-59),
abstracting the collector's `args_into_config_expression` as `argsIntoConfig`
and its `CHEATCODE_NAME` as `cheatcodeName`: on collector diagnostics the `?`
operator propagates them and no token stream is produced; on success the
generated statements are spliced with `append_config_statements` (whose
possible panic stays `none`). -/
def with_config_cheatcodes
    (argsIntoConfig : List String → Except (List String) (List String))
    (cheatcodeName : String) (func : FunctionWithBody) (args : List String) :
    Option (Except (List String) FunctionWithBody) :=
  match argsIntoConfig args with
  | Except.error diags => some (Except.error diags)
  | Except.ok value =>
    (append_config_statements func (configCheatcodeStatements value cheatcodeName)).map
      Except.ok

/-! Helper lemmas shared by the claim theorems. -/

theorem recognizeGuard_guardStatement (I : List SimpleStmt) :
    recognizeGuard (guardStatement I) = some I := rfl

theorem previousContent_append_ret (I : List SimpleStmt) :
    previousContent (I ++ [SimpleStmt.simpleRet]) = some I := by
  cases I with
  | nil => rfl
  | cons s rest =>
    simp only [List.cons_append, previousContent]
    rw [← List.cons_append, List.dropLast_concat]

theorem append_config_statements_guarded (v a d : List String) (I : List SimpleStmt)
    (rest : List Statement) (cfg : List SimpleStmt) :
    append_config_statements
        (FunctionWithBody.mk v a d (guardStatement (I ++ [SimpleStmt.simpleRet]) :: rest)) cfg =
      some (FunctionWithBody.mk v a d
        (guardStatement (I ++ cfg ++ [SimpleStmt.simpleRet]) :: rest)) := by
  simp [append_config_statements, ifContent, recognizeGuard_guardStatement,
    previousContent_append_ret]

theorem append_config_statements_unguarded (func : FunctionWithBody)
    (cfg : List SimpleStmt) (h : ifContent func.statements = some none) :
    append_config_statements func cfg =
      some (FunctionWithBody.mk func.visibility func.attributes func.declaration
        (guardStatement (cfg ++ [SimpleStmt.simpleRet]) :: func.statements)) := by
  simp [append_config_statements, h]

theorem applyBlocks_guarded (blocks : List (List SimpleStmt)) :
    ∀ (v a d : List String) (I : List SimpleStmt) (rest : List Statement),
    applyBlocks
        (FunctionWithBody.mk v a d (guardStatement (I ++ [SimpleStmt.simpleRet]) :: rest))
        blocks =
      some (FunctionWithBody.mk v a d
        (guardStatement (I ++ blocks.flatten ++ [SimpleStmt.simpleRet]) :: rest)) := by
  induction blocks with
  | nil => intro v a d I rest; simp [applyBlocks]
  | cons g gs ih =>
    intro v a d I rest
    rw [applyBlocks, append_config_statements_guarded]
    show applyBlocks (FunctionWithBody.mk v a d
        (guardStatement ((I ++ g) ++ [SimpleStmt.simpleRet]) :: rest)) gs = _
    rw [ih]
    simp [List.append_assoc]

theorem guardShapedInteriors_cons_guard (X : List SimpleStmt) (l : List Statement) :
    guardShapedInteriors (guardStatement X :: l) = X :: guardShapedInteriors l := by
  simp [guardShapedInteriors, recognizeGuard_guardStatement]

theorem hasRecognizedGuard_eq (stmts : List Statement)
    (prevOpt : Option (List SimpleStmt)) (h : ifContent stmts = some prevOpt) :
    hasRecognizedGuard stmts = prevOpt.isSome := by
  cases stmts with
  | nil =>
    simp only [ifContent, Option.some.injEq] at h
    subst h
    rfl
  | cons s rest =>
    simp only [ifContent] at h
    cases hrg : recognizeGuard s with
    | none =>
      rw [hrg] at h
      simp only [Option.some.injEq] at h
      subst h
      simp [hasRecognizedGuard, hrg]
    | some blk =>
      simp only [hrg] at h
      cases hpc : previousContent blk with
      | none => rw [hpc] at h; simp at h
      | some prev =>
        rw [hpc] at h
        simp at h
        subst h
        simp [hasRecognizedGuard, hrg]

/-! Claim theorems. -/

/-- Claim C1 (amended): for every syntactically valid function whose first
statement is not a recognized guarded block, and every nonempty sequence of
generated statement blocks G1..GN, applying the statement-splicing
transformation N times in sequence — each application consuming the previous
application's output — succeeds and yields a function whose body is one
guarded block whose interior is G1..GN in application order followed by a
single early return, followed by the original statements; exactly one
guard-shaped statement is added, so the guard and its return are never
duplicated. -/
theorem C1_accumulated_splice (func : FunctionWithBody)
    (blocks : List (List SimpleStmt))
    (hng : ifContent func.statements = some none)
    (hne : blocks ≠ []) :
    ∃ result, applyBlocks func blocks = some result ∧
      result.statements =
        guardStatement (blocks.flatten ++ [SimpleStmt.simpleRet]) :: func.statements ∧
      guardShapedInteriors result.statements =
        (blocks.flatten ++ [SimpleStmt.simpleRet]) :: guardShapedInteriors func.statements ∧
      result.visibility = func.visibility ∧
      result.attributes = func.attributes ∧
      result.declaration = func.declaration := by
  cases blocks with
  | nil => exact absurd rfl hne
  | cons g gs =>
    rw [applyBlocks, append_config_statements_unguarded func g hng]
    show ∃ result, applyBlocks (FunctionWithBody.mk func.visibility func.attributes
        func.declaration (guardStatement (g ++ [SimpleStmt.simpleRet]) :: func.statements)) gs
          = some result ∧ _
    rw [applyBlocks_guarded]
    refine ⟨_, rfl, ?_, ?_, rfl, rfl, rfl⟩
    · simp [List.append_assoc]
    · rw [guardShapedInteriors_cons_guard]
      simp [List.append_assoc]

def fC1 : FunctionWithBody :=
  FunctionWithBody.mk [] [] ["fn", "t", "(", ")"] [Statement.otherStmt ["s1", ";"]]

def gC1a : List SimpleStmt := [SimpleStmt.simpleOther ["g1", ";"]]

def gC1b : List SimpleStmt := [SimpleStmt.simpleOther ["g2", ";"]]

/-- Witness for C1: two stacked applications on a guard-free function
accumulate G1 then G2 inside one guard, before a single return. -/
theorem C1_accumulated_splice_witness :
    ∃ result, applyBlocks fC1 [gC1a, gC1b] = some result ∧
      result.statements =
        guardStatement (gC1a ++ gC1b ++ [SimpleStmt.simpleRet]) :: fC1.statements := by
  obtain ⟨r, h1, h2, -⟩ := C1_accumulated_splice fC1 [gC1a, gC1b] rfl (by simp)
  exact ⟨r, h1, by simpa [List.append_assoc] using h2⟩

def fC1pre : FunctionWithBody :=
  FunctionWithBody.mk [] [] ["fn", "t", "(", ")"]
    [guardStatement [SimpleStmt.simpleOther ["x", ";"], SimpleStmt.simpleRet]]

/-- Counterexample to C1 as stated: quantified over every syntactically valid
function, the claim fails on a function that already carries a guarded block
with previous content `x;` — after one application the single guard's
interior is the previous content followed by G1 and the return, not G1
followed by the return. -/
theorem C1_counterexample :
    (applyBlocks fC1pre [[SimpleStmt.simpleOther ["g1", ";"]]]).map
        (fun result => guardShapedInteriors result.statements) ≠
      some [[SimpleStmt.simpleOther ["g1", ";"], SimpleStmt.simpleRet]] := by
  decide

/-- Claim C2: the splicer treats the first statement as an existing guarded
block iff it is an expression-statement whose expression is a conditional
whose test is a function call on a path of exactly three segments equal to
the sentinel triple `snforge_std::_internals::_is_config_run`; and a first
statement whose conditional test calls a different 3-segment path is not
treated as a guard — the whole original statement sequence becomes remainder
content and a fresh guard is created ahead of it. -/
theorem C2_detection_iff :
    (∀ s : Statement, (recognizeGuard s).isSome = specDetectionShape s) ∧
    (∀ (func : FunctionWithBody) (cfg : List SimpleStmt) (a b c : String)
        (argT : List String) (blk : List SimpleStmt) (els : List String)
        (rest : List Statement),
      [a, b, c] ≠ sentinelPath →
      func.statements =
        Statement.exprStmt (Expr.ifExpr (Condition.condExpr
          (CondExpr.functionCall [a, b, c] argT)) blk els) :: rest →
      append_config_statements func cfg =
        some (FunctionWithBody.mk func.visibility func.attributes func.declaration
          (guardStatement (cfg ++ [SimpleStmt.simpleRet]) :: func.statements))) := by
  constructor
  · intro s
    cases s with
    | otherStmt ts => rfl
    | exprStmt e =>
      cases e with
      | otherExpr ts => rfl
      | ifExpr cond blk els =>
        cases cond with
        | letCondition ts => rfl
        | condExpr ce =>
          cases ce with
          | otherCondExpr ts => rfl
          | functionCall p argT =>
            cases p with
            | nil => rfl
            | cons x p1 =>
              cases p1 with
              | nil => simp [recognizeGuard, specDetectionShape, sentinelPath]
              | cons y p2 =>
                cases p2 with
                | nil => simp [recognizeGuard, specDetectionShape, sentinelPath]
                | cons z p3 =>
                  cases p3 with
                  | cons w p4 => simp [recognizeGuard, specDetectionShape, sentinelPath]
                  | nil =>
                    by_cases h1 : x = "snforge_std" <;>
                      by_cases h2 : y = "_internals" <;>
                      by_cases h3 : z = "_is_config_run" <;>
                      simp [recognizeGuard, specDetectionShape, sentinelPath, h1, h2, h3]
  · intro func cfg a b c argT blk els rest hne hstmts
    have hd : a ≠ "snforge_std" ∨ b ≠ "_internals" ∨ c ≠ "_is_config_run" := by
      by_contra hc
      push_neg at hc
      exact hne (by simp [sentinelPath, hc.1, hc.2.1, hc.2.2])
    have hrg : recognizeGuard (Statement.exprStmt (Expr.ifExpr (Condition.condExpr
        (CondExpr.functionCall [a, b, c] argT)) blk els)) = none := by
      simp [recognizeGuard, hd]
    exact append_config_statements_unguarded func cfg
      (by rw [hstmts]; simp [ifContent, hrg])

def fC2 : FunctionWithBody :=
  FunctionWithBody.mk [] [] ["fn", "t", "(", ")"]
    [Statement.exprStmt (Expr.ifExpr (Condition.condExpr
      (CondExpr.functionCall ["snforge_std", "_internals", "_is_config"] [])) [] [])]

/-- Witness for C2: a first statement calling the 3-segment path
`snforge_std::_internals::_is_config` (not the sentinel) is kept in the
remainder and a fresh guard is created ahead of it. -/
theorem C2_detection_iff_witness :
    append_config_statements fC2 [] =
      some (FunctionWithBody.mk [] [] ["fn", "t", "(", ")"]
        (guardStatement [SimpleStmt.simpleRet] :: fC2.statements)) := by
  have h := C2_detection_iff.2 fC2 [] "snforge_std" "_internals" "_is_config"
    [] [] [] [] (by decide) rfl
  simpa using h

/-- Claim C3: whenever the splicer produces output, every statement outside
the guarded block is re-emitted unchanged and in original order after the
guard — the statements after a recognized guard, or the entire original
sequence when no guard is recognized. -/
theorem C3_remainder_preserved (func : FunctionWithBody) (cfg : List SimpleStmt)
    (result : FunctionWithBody)
    (h : append_config_statements func cfg = some result) :
    ∃ interior, result.statements =
      guardStatement interior ::
        (if hasRecognizedGuard func.statements then func.statements.tail
         else func.statements) := by
  unfold append_config_statements at h
  cases hic : ifContent func.statements with
  | none => rw [hic] at h; simp at h
  | some prevOpt =>
    rw [hic] at h
    simp only [Option.some.injEq] at h
    subst h
    refine ⟨prevOpt.getD [] ++ cfg ++ [SimpleStmt.simpleRet], ?_⟩
    rw [hasRecognizedGuard_eq func.statements prevOpt hic]
    cases prevOpt <;> simp

def fC3 : FunctionWithBody :=
  FunctionWithBody.mk [] [] ["fn", "t", "(", ")"]
    [guardStatement [SimpleStmt.simpleOther ["x", ";"], SimpleStmt.simpleRet],
     Statement.otherStmt ["r1", ";"], Statement.otherStmt ["r2", ";"]]

/-- Witness for C3: with a recognized guard followed by `r1; r2`, the spliced
output keeps `r1; r2` unchanged right after the single guard. -/
theorem C3_remainder_preserved_witness :
    ∃ interior,
      (FunctionWithBody.mk [] [] ["fn", "t", "(", ")"]
        (guardStatement [SimpleStmt.simpleOther ["x", ";"], SimpleStmt.simpleOther ["g", ";"],
          SimpleStmt.simpleRet] ::
          [Statement.otherStmt ["r1", ";"], Statement.otherStmt ["r2", ";"]])).statements =
      guardStatement interior ::
        (if hasRecognizedGuard fC3.statements then fC3.statements.tail
         else fC3.statements) :=
  C3_remainder_preserved fC3 [SimpleStmt.simpleOther ["g", ";"]] _ rfl

/-- Claim C4 (amended): the splicing step succeeds on every syntactically
valid function except one whose first statement is a recognized guarded block
with an empty interior (where the `statements.len() - 1` slice underflows and
panics); on a zero-statement body it produces a guard containing only the
newly generated statements and the early return, with empty remainder. -/
theorem C4_totality (func : FunctionWithBody) (cfg : List SimpleStmt)
    (h : underflowsOnExtraction func.statements = false) :
    (append_config_statements func cfg).isSome = true ∧
    (func.statements = [] →
      append_config_statements func cfg =
        some (FunctionWithBody.mk func.visibility func.attributes func.declaration
          [guardStatement (cfg ++ [SimpleStmt.simpleRet])])) := by
  obtain ⟨v, a, d, stmts⟩ := func
  cases stmts with
  | nil =>
    constructor
    · simp [append_config_statements, ifContent]
    · intro _
      simp [append_config_statements, ifContent]
  | cons s rest =>
    refine ⟨?_, by intro hc; exact absurd hc (by simp)⟩
    cases hrg : recognizeGuard s with
    | none => simp [append_config_statements, ifContent, hrg]
    | some blk =>
      cases blk with
      | nil => simp [underflowsOnExtraction, hrg] at h
      | cons b bs =>
        simp [append_config_statements, ifContent, hrg, previousContent]

def fC4 : FunctionWithBody := FunctionWithBody.mk [] [] ["fn", "e", "(", ")"] []

def gC4 : List SimpleStmt := [SimpleStmt.simpleOther ["g", ";"]]

/-- Witness for C4: the zero-statement body degenerates to a guard with only
the generated statements and the return, with empty remainder. -/
theorem C4_totality_witness :
    (append_config_statements fC4 gC4).isSome = true ∧
    (fC4.statements = [] →
      append_config_statements fC4 gC4 =
        some (FunctionWithBody.mk fC4.visibility fC4.attributes fC4.declaration
          [guardStatement (gC4 ++ [SimpleStmt.simpleRet])])) :=
  C4_totality fC4 gC4 rfl

/-- Counterexample to C4 as stated: on the syntactically valid function whose
first statement is a recognized guarded block with an empty interior, the
splicer hits the `statements.len() - 1` underflow and panics instead of
producing output. -/
theorem C4_counterexample :
    append_config_statements
      (FunctionWithBody.mk [] [] ["fn", "t", "(", ")"] [guardStatement []]) [] = none := by
  decide

/-- Claim C5 (amended): the splicer's output consists of the original
attribute list, then the original visibility, then the original declaration,
then a body whose first element is one guarded block — sentinel condition,
interior equal to the previous guard content, then the generated statements,
then an early return — immediately followed by the remainder content. -/
theorem C5_synthesis (func : FunctionWithBody) (cfg : List SimpleStmt)
    (prevOpt : Option (List SimpleStmt))
    (h : ifContent func.statements = some prevOpt) :
    ∃ result, append_config_statements func cfg = some result ∧
      result.visibility = func.visibility ∧
      result.attributes = func.attributes ∧
      result.declaration = func.declaration ∧
      result.statements =
        guardStatement (prevOpt.getD [] ++ cfg ++ [SimpleStmt.simpleRet]) ::
          (if prevOpt.isSome then func.statements.tail else func.statements) ∧
      renderFunction result =
        func.attributes ++ func.visibility ++ func.declaration ++
          ["\x7b"] ++ (result.statements.map Statement.render).flatten ++ ["\x7d"] := by
  refine ⟨FunctionWithBody.mk func.visibility func.attributes func.declaration
    (guardStatement (prevOpt.getD [] ++ cfg ++ [SimpleStmt.simpleRet]) ::
      (if prevOpt.isSome then func.statements.tail else func.statements)),
    ?_, rfl, rfl, rfl, rfl, rfl⟩
  rw [append_config_statements, h]
  cases prevOpt <;> simp

def fC5 : FunctionWithBody :=
  FunctionWithBody.mk [] [] ["fn", "t", "(", ")"]
    [Statement.otherStmt ["s1", ";"], Statement.otherStmt ["s2", ";"],
     Statement.otherStmt ["s3", ";"]]

def gC5 : List SimpleStmt := [SimpleStmt.simpleOther ["g", ";"]]

/-- Witness for C5: body `[s1, s2, s3]` with no existing guard and generated
block G yields body `[guard {G; return}, s1, s2, s3]`. -/
theorem C5_synthesis_witness :
    ∃ result, append_config_statements fC5 gC5 = some result ∧
      result.statements = guardStatement (gC5 ++ [SimpleStmt.simpleRet]) :: fC5.statements := by
  obtain ⟨r, h1, -, -, -, h5, -⟩ := C5_synthesis fC5 gC5 none rfl
  exact ⟨r, h1, by simpa using h5⟩

def fC5cex : FunctionWithBody :=
  FunctionWithBody.mk ["pub"] ["#[test]"] ["fn", "t", "(", ")"] []

/-- Counterexample to C5 as stated: the emitted token stream puts the
original attribute list before the original visibility
(`quote!(#attrs #vis #declaration ...)`), so on a function with visibility
`pub` and attribute `#[test]` the output does not begin with the visibility
as the claim orders the components. -/
theorem C5_counterexample :
    (append_config_statements fC5cex []).map renderFunction ≠
      (append_config_statements fC5cex []).map renderFunctionSpecOrder := by
  decide

/-- Claim C6: when a guarded block is recognized, the splicer re-emits the
guard's interior minus its final statement (the assumed return) verbatim and
in order as previous content inside the single output guard, before the newly
generated statements. -/
theorem C6_previous_content (func : FunctionWithBody) (cfg prev blk : List SimpleStmt)
    (s : Statement) (rest : List Statement)
    (h1 : func.statements = s :: rest)
    (h2 : recognizeGuard s = some blk)
    (h3 : previousContent blk = some prev) :
    append_config_statements func cfg =
      some (FunctionWithBody.mk func.visibility func.attributes func.declaration
        (guardStatement (prev ++ cfg ++ [SimpleStmt.simpleRet]) :: rest)) := by
  have hic : ifContent func.statements = some (some prev) := by
    rw [h1]
    simp [ifContent, h2, h3]
  rw [append_config_statements, hic]
  simp [h1]

def xStmtC6 : SimpleStmt := SimpleStmt.simpleOther ["x", ";"]

def r1StmtC6 : Statement := Statement.otherStmt ["r1", ";"]

def fC6 : FunctionWithBody :=
  FunctionWithBody.mk [] [] ["fn", "t", "(", ")"]
    [guardStatement [xStmtC6, SimpleStmt.simpleRet], r1StmtC6]

def gC6 : List SimpleStmt := [SimpleStmt.simpleOther ["g", ";"]]

/-- Witness for C6: body `[guard {x; return}, r1]` with new block G yields
body `[guard {x; G; return}, r1]`. -/
theorem C6_previous_content_witness :
    append_config_statements fC6 gC6 =
      some (FunctionWithBody.mk fC6.visibility fC6.attributes fC6.declaration
        (guardStatement ([xStmtC6] ++ gC6 ++ [SimpleStmt.simpleRet]) :: [r1StmtC6])) :=
  C6_previous_content fC6 gC6 [xStmtC6] [xStmtC6, SimpleStmt.simpleRet]
    (guardStatement [xStmtC6, SimpleStmt.simpleRet]) [r1StmtC6] rfl rfl rfl

/-- Claim C7: for every optional configuration field, the expression
serializer maps an absent optional value to the `Option::None` literal
expression and a present optional value wrapping v to the `Option::Some`
constructor applied to the serialization of v. -/
theorem C7_option_serializer :
    ∀ {α : Type} (ser : α → List String),
      optionAsCairoExpression ser none = ["Option", "::", "None"] ∧
      ∀ v : α, optionAsCairoExpression ser (some v) =
        ["Option", "::", "Some", "("] ++ ser v ++ [")"] :=
  fun _ => ⟨rfl, fun _ => rfl⟩

/-- Claim C8: for every sequence value, the expression serializer emits the
opening `array![` token, then each element's serialization followed by a `,`
separator token — including after the last element — then the closing `]`
token; for the empty sequence the output is exactly the opening token
followed by the closing token with no separator. -/
theorem C8_vec_serializer :
    ∀ {α : Type} (ser : α → List String) (l : List α),
      vecAsCairoExpression ser l =
        ["array!["] ++ (l.map (fun e => ser e ++ [","])).flatten ++ ["]"] ∧
      vecAsCairoExpression ser [] = ["array![", "]"] := by
  intro α ser l
  refine ⟨?_, rfl⟩
  have key : ∀ (l2 : List α) (acc : List String),
      l2.foldl (fun acc2 e => acc2 ++ ser e ++ [","]) acc =
        acc ++ (l2.map (fun e => ser e ++ [","])).flatten := by
    intro l2
    induction l2 with
    | nil => intro acc; simp
    | cons x xs ih =>
      intro acc
      rw [List.foldl_cons, ih]
      simp [List.append_assoc]
  show (l.foldl (fun acc e => acc ++ ser e ++ [","]) ["array!["]) ++ ["]"] = _
  rw [key l]

/-- Claim C9: the argument parser embeds the raw attribute-argument tokens as
a synthetic attribute on a sentinel empty function, reparses the unit, and on
success returns the extracted argument-list node; it fails (a fatal panic
with no user-facing diagnostic channel) exactly when the synthetic reparse
violates its internal invariant — no free function is found, or the sentinel
attribute is missing from it. -/
theorem C9_parse_args :
    ∀ (parser : List String → List ModuleItem) (args : List String),
      (∀ e, parse parser (syntheticCode args) = Except.error e →
        parse_args parser args = none) ∧
      (∀ func attr, parse parser (syntheticCode args) = Except.ok func →
        find_attr func syntheticAttrName = some attr →
        parse_args parser args = some attr.args) ∧
      (parse_args parser args = none ↔
        (∃ e, parse parser (syntheticCode args) = Except.error e) ∨
        (∃ func, parse parser (syntheticCode args) = Except.ok func ∧
          find_attr func syntheticAttrName = none)) := by
  intro parser args
  refine ⟨?_, ?_, ?_⟩
  · intro e he
    simp [parse_args, he]
  · intro func attr hf ha
    simp [parse_args, hf, ha]
  · cases hp : parse parser (syntheticCode args) with
    | error e =>
      simp [parse_args, hp]
    | ok func =>
      cases ha : find_attr func syntheticAttrName with
      | none => simp [parse_args, hp, ha]
      | some attr => simp [parse_args, hp, ha]

def parserC9 : List String → List ModuleItem :=
  fun _ => [ModuleItem.freeFunction
    (ParsedFunction.mk [PAttr.mk syntheticAttrName ["42"]])]

/-- Witness for C9: a parser that yields the synthetic function carrying the
sentinel attribute with arguments `42` makes `parse_args` return `42`. -/
theorem C9_parse_args_witness : parse_args parserC9 ["42"] = some ["42"] :=
  (C9_parse_args parserC9 ["42"]).2.1
    (ParsedFunction.mk [PAttr.mk syntheticAttrName ["42"]])
    (PAttr.mk syntheticAttrName ["42"]) rfl rfl

/-- Claim C10: when the collector succeeds, the generated statements placed
inside the guarded block serialize the configuration value into a fresh byte
buffer via the value's own `serialize` and pass the buffer's span to the
single cheatcode intrinsic named by the collector's `CHEATCODE_NAME`, and the
guard's condition is the zero-argument sentinel query; when the collector
returns diagnostics, they are propagated and no output function is
produced. -/
theorem C10_config_cheatcodes :
    ∀ (argsIntoConfig : List String → Except (List String) (List String))
      (cheatcodeName : String) (func : FunctionWithBody) (args : List String),
      (∀ diags, argsIntoConfig args = Except.error diags →
        with_config_cheatcodes argsIntoConfig cheatcodeName func args =
          some (Except.error diags)) ∧
      (∀ value prevOpt, argsIntoConfig args = Except.ok value →
        ifContent func.statements = some prevOpt →
        with_config_cheatcodes argsIntoConfig cheatcodeName func args =
          some (Except.ok (FunctionWithBody.mk func.visibility func.attributes
            func.declaration
            (guardStatement (prevOpt.getD [] ++
                configCheatcodeStatements value cheatcodeName ++ [SimpleStmt.simpleRet]) ::
              (if prevOpt.isSome then func.statements.tail else func.statements))))) := by
  intro argsIntoConfig cheatcodeName func args
  constructor
  · intro diags hd
    simp [with_config_cheatcodes, hd]
  · intro value prevOpt hv hic
    simp only [with_config_cheatcodes, hv]
    simp only [append_config_statements, hic]
    cases prevOpt <;> simp

def aicC10 : List String → Except (List String) (List String) :=
  fun _ => Except.ok ["cfgval"]

def fC10 : FunctionWithBody := FunctionWithBody.mk [] [] ["fn", "t", "(", ")"] []

/-- Witness for C10: a collector returning the value `cfgval` under the
cheatcode name `set_config` yields a single guard holding the serialization
statements and the cheatcode call, followed by the return. -/
theorem C10_config_cheatcodes_witness :
    with_config_cheatcodes aicC10 "set_config" fC10 [] =
      some (Except.ok (FunctionWithBody.mk [] [] ["fn", "t", "(", ")"]
        [guardStatement (configCheatcodeStatements ["cfgval"] "set_config" ++
          [SimpleStmt.simpleRet])])) := by
  have h := (C10_config_cheatcodes aicC10 "set_config" fC10 []).2 ["cfgval"] none rfl rfl
  simpa using h

end Snforge
